import Mathlib

/-!
Verification of the Scaleway Dedibox DNS provider (zone-version lifecycle
client) against its natural-language specification.

The Go source consists of `internal/client.go` (REST client), the record and
version data model, and `scalewaydedibox.go` (the challenge coordinator with
`Present`/`CleanUp`).  Pure computations of the source are embedded directly;
the HTTP transport is abstracted: an operation's network-dependent inputs
(the decoded response of the underlying call) become explicit arguments, and
`Except` carries the propagated errors.  Go slice-indexing panics are
modelled by `Option.none`.
-/

set_option linter.unusedVariables false

namespace ScalewayDedibox

/-- Opaque back-reference held by a zone version (JSON shape `{$ref}`). -/
structure Ref where
  ref : String
  deriving Repr, DecidableEq

/-- The API representation of a domain record (`internal.Record`).
The Go field `Type` is called `Typ` here because `Type` is reserved in Lean;
`Value` carries the JSON `data` field. -/
structure Record where
  Typ : String
  Name : String
  Value : String
  TTL : Int
  Priority : Int
  deriving Repr, DecidableEq

/-- The Go zero value `internal.Record{}`. -/
def emptyRecord : Record :=
  { Typ := "", Name := "", Value := "", TTL := 0, Priority := 0 }

/-- The API representation of a zone version (`internal.Version`). -/
structure Version where
  UUIDRef : String
  Name : String
  CreationDate : String
  Domain : Ref
  Zone : Ref
  Active : Bool
  deriving Repr, DecidableEq

/-- The Go zero value `internal.Version{}`, the sentinel compared against by
`Present`'s guard and by `CleanUp`. -/
def emptyVersion : Version :=
  { UUIDRef := "", Name := "", CreationDate := "", Domain := ⟨""⟩, Zone := ⟨""⟩,
    Active := false }

/-- Constants of `client.go`. -/
def DefaultBaseURL : String := "https://api.online.net/api/v1"

/-- Default priority forced onto every created record (`client.go`). -/
def DefaultRecordPriority : Int := 12

/-- Go's `slices.IndexFunc`: index of the first element satisfying `p`,
`-1` when there is none. -/
def IndexFunc {α : Type} (p : α → Bool) : List α → Int
  | [] => -1
  | x :: xs =>
    if p x then 0
    else if IndexFunc p xs = -1 then -1 else IndexFunc p xs + 1

/-- Go slice indexing `l[i]` with an `int` index: `none` models the runtime
panic when `i` is out of range. -/
def goIndex {α : Type} (l : List α) (i : Int) : Option α :=
  if h : 0 ≤ i ∧ i.toNat < l.length then some (l.get ⟨i.toNat, h.2⟩) else none

/-- Characterisation of `IndexFunc`: either no element satisfies `p` and the
result is `-1`, or the result is the position of the first satisfying
element. -/
theorem IndexFunc_spec {α : Type} (p : α → Bool) (l : List α) :
    (IndexFunc p l = -1 ∧ ∀ x ∈ l, p x = false) ∨
    ∃ (i : Nat) (h : i < l.length), IndexFunc p l = (i : Int) ∧
      p (l.get ⟨i, h⟩) = true ∧
      ∀ (j : Nat) (hj : j < l.length), j < i → p (l.get ⟨j, hj⟩) = false := by
  induction l with
  | nil => exact Or.inl ⟨rfl, by simp⟩
  | cons x xs ih =>
    cases hp : p x with
    | true =>
      refine Or.inr ⟨0, by simp, by simp [IndexFunc, hp], by simpa using hp, ?_⟩
      intro j hj hj0
      omega
    | false =>
      rcases ih with ⟨h1, h2⟩ | ⟨i, h, h1, h2, h3⟩
      · refine Or.inl ⟨by simp [IndexFunc, hp, h1], ?_⟩
        intro y hy
        rcases List.mem_cons.mp hy with rfl | hy
        · exact hp
        · exact h2 y hy
      · refine Or.inr ⟨i + 1, by simpa using Nat.succ_lt_succ h, ?_, ?_, ?_⟩
        · have hne : ¬(IndexFunc p xs = -1) := by rw [h1]; omega
          simp only [IndexFunc, hp, if_false, Bool.false_eq_true, hne, if_neg hne, h1]
          push_cast
          ring
        · simpa using h2
        · intro j hj hji
          cases j with
          | zero => exact hp
          | succ j' =>
            have hj' : j' < xs.length := by simpa using Nat.lt_of_succ_lt_succ hj
            have := h3 j' hj' (Nat.lt_of_succ_lt_succ hji)
            simpa using this

/-- If no element satisfies `p`, `IndexFunc` returns `-1`. -/
theorem IndexFunc_eq_neg_one {α : Type} (p : α → Bool) (l : List α)
    (hall : ∀ x ∈ l, p x = false) : IndexFunc p l = -1 := by
  rcases IndexFunc_spec p l with ⟨h1, _⟩ | ⟨i, h, h1, h2, _⟩
  · exact h1
  · have hf : p (l.get ⟨i, h⟩) = false := hall _ (l.get_mem i h)
    rw [h2] at hf
    cases hf

/-- If position `i` holds the first element satisfying `p`, `IndexFunc`
returns `i`. -/
theorem IndexFunc_eq_of_first {α : Type} (p : α → Bool) (l : List α)
    (i : Nat) (h : i < l.length) (hp : p (l.get ⟨i, h⟩) = true)
    (hfirst : ∀ (j : Nat) (hj : j < l.length), j < i → p (l.get ⟨j, hj⟩) = false) :
    IndexFunc p l = (i : Int) := by
  rcases IndexFunc_spec p l with ⟨h1, h2⟩ | ⟨k, hk, h1, h2, h3⟩
  · have hf : p (l.get ⟨i, h⟩) = false := h2 _ (l.get_mem i h)
    rw [hp] at hf
    cases hf
  · have hki : k = i := by
      rcases Nat.lt_trichotomy k i with hlt | heq | hgt
      · have hf := hfirst k hk hlt
        rw [h2] at hf
        cases hf
      · exact heq
      · have hf := h3 i h hgt
        rw [hp] at hf
        cases hf
    subst hki
    exact h1

/-- The expression `authZone[0 : len(authZone)-1]` computed by every endpoint
builder in `client.go` to turn the FQDN-with-trailing-separator zone name into
the domain path segment.  `none` models the slice-bounds panic that the Go
expression raises on the empty string (bounds `[0:-1]`).  Go slices bytes;
zone names are ASCII, where the byte at each index is the character at that
index, so the character-list model coincides with the byte-level slice. -/
def domainNameOf (authZone : String) : Option String :=
  if authZone.data.length = 0 then none else some ⟨authZone.data.dropLast⟩

/-- Path segments of the endpoint built by `ListAllVersions`:
`/domain/{domain}/version`. -/
def ListAllVersionsEndpoint (authZone : String) : Option (List String) :=
  (domainNameOf authZone).map fun domainName => ["domain", domainName, "version"]

/-- Path segments of the endpoint built by `GetZoneVersion`:
`/domain/{domain}/version/{uuid}`. -/
def GetZoneVersionEndpoint (authZone versionUUID : String) : Option (List String) :=
  (domainNameOf authZone).map fun domainName =>
    ["domain", domainName, "version", versionUUID]

/-- Path segments of the endpoint built by `CreateZoneVersion`:
`/domain/{domain}/version`. -/
def CreateZoneVersionEndpoint (authZone : String) : Option (List String) :=
  (domainNameOf authZone).map fun domainName => ["domain", domainName, "version"]

/-- Path segments of the endpoint built by `DeleteZoneVersion`:
`/domain/{domain}/version/{uuid}`. -/
def DeleteZoneVersionEndpoint (authZone versionUUID : String) : Option (List String) :=
  (domainNameOf authZone).map fun domainName =>
    ["domain", domainName, "version", versionUUID]

/-- Path segments of the endpoint built by `GetAllRecords`:
`/domain/{domain}/version/{uuid}/zone`. -/
def GetAllRecordsEndpoint (authZone versionUUID : String) : Option (List String) :=
  (domainNameOf authZone).map fun domainName =>
    ["domain", domainName, "version", versionUUID, "zone"]

/-- Path segments of the endpoint built by `EnableZone`:
`/domain/{domain}/version/{id}/enable`. -/
def EnableZoneEndpoint (authZone versionID : String) : Option (List String) :=
  (domainNameOf authZone).map fun domainName =>
    ["domain", domainName, "version", versionID, "enable"]

/-- Path segments of the endpoint built by `CreateRecord`:
`/domain/{domain}/version/{id}/zone`. -/
def CreateRecordEndpoint (authZone versionID : String) : Option (List String) :=
  (domainNameOf authZone).map fun domainName =>
    ["domain", domainName, "version", versionID, "zone"]

/-- Pure core of `FindActiveZoneVersion`, given the decoded version list
returned by `ListAllVersions`.  The Go code indexes `versions[activeidx]`
unconditionally after `slices.IndexFunc`, so a missing active version makes
it index at `-1`: `none` models that out-of-range panic. -/
def FindActiveZoneVersion (versions : List Version) : Option Version :=
  goIndex versions (IndexFunc (fun v => v.Active) versions)

/-- Pure core of `FindZoneVersion`, given the decoded version list: first
version whose name matches, or the zero-value sentinel.  The guarded branch
`activeidx > -1` makes the indexing total; `getD` supplies the (unreachable)
default. -/
def FindZoneVersion (versions : List Version) (versionName : String) : Version :=
  let activeidx := IndexFunc (fun v => v.Name == versionName) versions
  if activeidx > -1 then (goIndex versions activeidx).getD emptyVersion
  else emptyVersion

/-- Pure core of `GetRecord`, given the decoded record list returned by
`GetAllRecords`: first record matching both name and type, or the zero-value
sentinel. -/
def GetRecord (allRecords : List Record) (recordName recordType : String) : Record :=
  let recordIdx :=
    IndexFunc (fun r => r.Name == recordName && r.Typ == recordType) allRecords
  if recordIdx > -1 then (goIndex allRecords recordIdx).getD emptyRecord
  else emptyRecord

/-- `GetRecord` with the propagated outcome of the underlying record listing:
an error of `GetAllRecords` is returned unchanged, otherwise the lookup never
fails. -/
def GetRecordResult (listing : Except String (List Record))
    (recordName recordType : String) : Except String Record :=
  match listing with
  | .error e => .error e
  | .ok allRecords => .ok (GetRecord allRecords recordName recordType)

/-- Pure core of `ReadVersionUUID`: the value of the first `("lego", "TXT")`
record with its 15-byte prefix `"active_version:"` removed, `""` when the
prefix is absent.  Go's `strings.HasPrefix` and the byte slice `Value[15:]`
are rendered on the character list, which coincides with Go's byte view on
the ASCII prefix. -/
def ReadVersionUUID (records : List Record) : String :=
  let record := GetRecord records "lego" "TXT"
  if "active_version:".data.isPrefixOf record.Value.data then
    ⟨record.Value.data.drop 15⟩
  else ""

/-- `ReadVersionUUID` with the propagated outcome of the underlying record
listing. -/
def ReadVersionUUIDResult (listing : Except String (List Record)) :
    Except String String :=
  match listing with
  | .error e => .error e
  | .ok records => .ok (ReadVersionUUID records)

/-- Whether `pat` occurs as a contiguous run inside `l` (substring search,
used to give the Go regexp its meaning). -/
def containsSeq (pat : List Char) : List Char → Bool
  | [] => pat.isPrefixOf ([] : List Char)
  | c :: rest => pat.isPrefixOf (c :: rest) || containsSeq pat rest

/-- Semantics of `regexp.MustCompile("^(A)|(AAAA)|(CNAME)|(MX)|(SRV)|(TXT)$").MatchString`
from `DuplicateZoneVersionRecords`.  In RE2, alternation has the lowest
precedence, so the pattern is six alternatives of which only the first is
anchored at the start and only the last at the end; `MatchString` is
unanchored and reports whether the string contains a match of any
alternative. -/
def allowedTypesMatch (s : String) : Bool :=
  "A".data.isPrefixOf s.data
    || containsSeq "AAAA".data s.data
    || containsSeq "CNAME".data s.data
    || containsSeq "MX".data s.data
    || containsSeq "SRV".data s.data
    || "TXT".data.isSuffixOf s.data

/-- The JSON body posted by `CreateRecord`: name, type, ttl and value come
from the argument record, the priority is forced to `DefaultRecordPriority`. -/
def CreateRecordPayload (record : Record) : Record :=
  { Name := record.Name, Typ := record.Typ, Priority := DefaultRecordPriority,
    TTL := record.TTL, Value := record.Value }

/-- The records `DuplicateZoneVersionRecords` posts into the target version,
in source order, given the decoded record list of the source version: each
source record whose type matches the allow-list regexp is rebuilt without
priority and passed through `CreateRecord`'s payload construction. -/
def DuplicateZoneVersionRecordsPayloads (records : List Record) : List Record :=
  (records.filter fun r => allowedTypesMatch r.Typ).map fun r =>
    CreateRecordPayload { Typ := r.Typ, Name := r.Name, Value := r.Value,
                          TTL := r.TTL, Priority := 0 }

/-- The JSON body posted by `CreateZoneVersion` (an anonymous
`struct { Name string }` in Go). -/
structure CreateVersionBody where
  name : String
  deriving Repr, DecidableEq

/-- The payload constructed by `CreateZoneVersion`: the name field is the
literal `"lego_tmp"`; the `versionName` argument does not flow into it. -/
def CreateZoneVersionPayload (versionName : String) : CreateVersionBody :=
  { name := "lego_tmp" }

/-- The REST client (`internal.Client`): token and base URL.  The HTTP
transport handle is not modelled; it does not influence request targets. -/
structure Client where
  apiToken : String
  baseURL : String
  deriving Repr, DecidableEq

/-- `internal.NewClient`: fails on an empty token, otherwise returns a client
whose base URL is the parsed `DefaultBaseURL`. -/
def NewClient (apiToken : String) : Except String Client :=
  if apiToken = "" then .error "missing API token"
  else .ok { apiToken := apiToken, baseURL := DefaultBaseURL }

/-- The provider configuration (`scalewaydedibox.Config`).  The HTTP client
handle is not modelled; durations are plain integers. -/
structure Config where
  BaseURL : String
  APIToken : String
  TempZoneVersionName : String
  PropagationTimeout : Int
  PollingInterval : Int
  TTL : Int
  deriving Repr, DecidableEq

/-- The provider (`scalewaydedibox.DNSProvider`), as built by construction;
the two in-flight UUID fields start empty. -/
structure DNSProvider where
  config : Config
  client : Client
  deriving Repr, DecidableEq

/-- `scalewaydedibox.NewDNSProviderConfig`: rejects a nil configuration and a
missing token, then builds the client from the token via `NewClient`.  The
source assigns `client.HTTPClient = config.HTTPClient` and nothing else of
the configuration to the client. -/
def NewDNSProviderConfig (config : Option Config) : Except String DNSProvider :=
  match config with
  | none => .error "scalewaydedibox: the configuration of the DNS provider is nil"
  | some cfg =>
    if cfg.APIToken = "" then .error "scalewaydedibox: credentials missing"
    else
      match NewClient cfg.APIToken with
      | .error e => .error ("scalewaydedibox: " ++ e)
      | .ok client => .ok { config := cfg, client := client }

/-- Base URL of the client inside a construction outcome, `none` on a failed
construction. -/
def providerClientBaseURL (r : Except String DNSProvider) : Option String :=
  match r with
  | .error _ => none
  | .ok p => some p.client.baseURL

/-! ### Backend state model

`Present` is a straight-line composition of client calls whose observable
effect lives on the registrar backend.  `ZoneState` is the backend's state
for the one zone under challenge.  The transition functions below are
modelled from the spec's description of the REST interface (one version
collection per domain, one record list per version, `enable` switching the
single active flag, creation naming the version after the payload's `name`
field); the request payloads they consume are the source-translated
definitions above. -/

/-- Backend state of a single zone: its version collection, the record list
of each version (keyed by version UUID), and a counter from which fresh
version UUIDs are drawn. -/
structure ZoneState where
  versions : List Version
  records : List (String × List Record)
  nextId : Nat
  deriving Repr, DecidableEq

/-- Modelled from the spec: the record list the backend returns for a version
UUID (list-records endpoint). -/
def lookupRecords (recs : List (String × List Record)) (versionUUID : String) :
    List Record :=
  match recs.find? (fun e => e.1 == versionUUID) with
  | some e => e.2
  | none => []

/-- Modelled from the spec: append a created record to a version's record
list (create-record endpoint storage). -/
def storeRecord (recs : List (String × List Record)) (versionUUID : String)
    (record : Record) : List (String × List Record) :=
  match recs.find? (fun e => e.1 == versionUUID) with
  | some _ => recs.map fun e => if e.1 == versionUUID then (e.1, e.2 ++ [record]) else e
  | none => recs ++ [(versionUUID, [record])]

/-- Modelled from the spec: the backend's create-version endpoint creates a
new inactive version named after the payload's `name` field, with a fresh
UUID, and returns it.  The payload is `CreateZoneVersionPayload`, the body
`CreateZoneVersion` actually posts (its name is `"lego_tmp"` independent of
`versionName`). -/
def createZoneVersionModel (s : ZoneState) (versionName : String) :
    Version × ZoneState :=
  let payload := CreateZoneVersionPayload versionName
  let newVersion : Version :=
    { UUIDRef := "uuid-" ++ toString s.nextId, Name := payload.name,
      CreationDate := "", Domain := ⟨""⟩, Zone := ⟨""⟩, Active := false }
  (newVersion,
   { s with versions := s.versions ++ [newVersion], nextId := s.nextId + 1 })

/-- Modelled from the spec: the backend stores the posted `CreateRecord`
payload in the target version and echoes it back. -/
def createRecordModel (s : ZoneState) (versionUUID : String) (record : Record) :
    Record × ZoneState :=
  let payload := CreateRecordPayload record
  (payload, { s with records := storeRecord s.records versionUUID payload })

/-- `DuplicateZoneVersionRecords` over the backend model: reads the source
version's records and posts each allow-listed one into the target, in order
(every creation succeeds in this failure-free model; failure propagation is
treated separately). -/
def duplicateModel (s : ZoneState) (sourceVersionUUID targetVersionUUID : String) :
    ZoneState :=
  let records := lookupRecords s.records sourceVersionUUID
  (records.filter fun r => allowedTypesMatch r.Typ).foldl
    (fun st r =>
      (createRecordModel st targetVersionUUID
        { Typ := r.Typ, Name := r.Name, Value := r.Value, TTL := r.TTL,
          Priority := 0 }).2)
    s

/-- Modelled from the spec: the enable endpoint makes the given version the
active one and deactivates every other version atomically. -/
def enableModel (s : ZoneState) (versionID : String) : ZoneState :=
  { s with versions := s.versions.map fun v =>
      { v with Active := v.UUIDRef == versionID } }

/-- Outcome of one `Present` run over the backend model. -/
inductive PresentOutcome where
  | ok (s : ZoneState)
  | conflictError (s : ZoneState)
  | panicNoActive (s : ZoneState)
  deriving Repr, DecidableEq

/-- `DNSProvider.Present` over the failure-free backend model, after the
external challenge-info collaborator has produced the zone, record name and
record value.  `tempName` is the configured `TempZoneVersionName`.  The
branches mirror the source: the guard compares `FindZoneVersion`'s result
against the zero `Version`, the active-version lookup inherits
`FindActiveZoneVersion`'s panic, and the remaining steps thread the backend
state. -/
def presentModel (tempName recName recValue : String) (ttl : Int)
    (s : ZoneState) : PresentOutcome :=
  let version := FindZoneVersion s.versions tempName
  if version ≠ emptyVersion then .conflictError s
  else
    match FindActiveZoneVersion s.versions with
    | none => .panicNoActive s
    | some activeZoneVersion =>
      let created := createZoneVersionModel s tempName
      let s2 := duplicateModel created.2 activeZoneVersion.UUIDRef created.1.UUIDRef
      let s3 := (createRecordModel s2 created.1.UUIDRef
        { Typ := "TXT", Name := recName, Value := recValue, TTL := ttl,
          Priority := 0 }).2
      .ok (enableModel s3 created.1.UUIDRef)

/-- Two `Present` calls with no intervening `CleanUp`: the second call runs
on the state the first one produced (and is not reached when the first call
already failed). -/
def presentTwice (tempName recName recValue : String) (ttl : Int)
    (s : ZoneState) : PresentOutcome :=
  match presentModel tempName recName recValue ttl s with
  | .ok s1 => presentModel tempName recName recValue ttl s1
  | other => other

/-- Whether a `Present` outcome is the success case. -/
def PresentOutcome.isOk : PresentOutcome → Bool
  | .ok _ => true
  | _ => false

/-- Whether a `Present` outcome is the temporary-version-name conflict. -/
def PresentOutcome.isConflict : PresentOutcome → Bool
  | .conflictError _ => true
  | _ => false

/-! ### Control-flow model of `Present` with failing client calls

For the abort-on-first-failure property, the six client calls `Present`
performs are abstracted by their outcomes: each call's decoded result (or
error) is an explicit input, and the model records which calls were issued.
This mirrors the straight-line source of `DNSProvider.Present`, each
`if err != nil { return fmt.Errorf(...) }` becoming a distinct error
constructor. -/

/-- The client calls `Present` performs, in program order. -/
inductive PresentStep where
  | guardLookup
  | activeLookup
  | createVersion
  | duplicateRecords
  | createChallengeRecord
  | enableVersion
  deriving Repr, DecidableEq

/-- The errors `Present` can return, one constructor per `return` site in the
source; each wraps the underlying client error except the conflict, which
`Present` raises itself. -/
inductive PresentError where
  | guardLookupFailed (e : String)
  | conflict
  | activeLookupFailed (e : String)
  | createVersionFailed (e : String)
  | duplicateRecordsFailed (e : String)
  | createChallengeRecordFailed (e : String)
  | enableVersionFailed (e : String)
  deriving Repr, DecidableEq

/-- The step a `Present` error identifies (the conflict is raised by the
guard-lookup step). -/
def PresentError.step : PresentError → PresentStep
  | .guardLookupFailed _ => .guardLookup
  | .conflict => .guardLookup
  | .activeLookupFailed _ => .activeLookup
  | .createVersionFailed _ => .createVersion
  | .duplicateRecordsFailed _ => .duplicateRecords
  | .createChallengeRecordFailed _ => .createChallengeRecord
  | .enableVersionFailed _ => .enableVersion

/-- Outcomes of the six client calls of one `Present` run, as decoded
results. -/
structure PresentCallOutcomes where
  guardLookup : Except String Version
  activeLookup : Except String Version
  createVersion : Except String Version
  duplicateRecords : Except String Unit
  createChallengeRecord : Except String Record
  enableVersion : Except String Unit
  deriving Repr

/-- The prefix of `Present`'s call sequence up to and including the given
step. -/
def stepsThrough : PresentStep → List PresentStep
  | .guardLookup => [.guardLookup]
  | .activeLookup => [.guardLookup, .activeLookup]
  | .createVersion => [.guardLookup, .activeLookup, .createVersion]
  | .duplicateRecords =>
      [.guardLookup, .activeLookup, .createVersion, .duplicateRecords]
  | .createChallengeRecord =>
      [.guardLookup, .activeLookup, .createVersion, .duplicateRecords,
       .createChallengeRecord]
  | .enableVersion =>
      [.guardLookup, .activeLookup, .createVersion, .duplicateRecords,
       .createChallengeRecord, .enableVersion]

/-- `DNSProvider.Present`'s control flow: returns the outcome together with
the list of client calls issued, in order.  Each failing call (and the
conflict guard) aborts with its own error constructor. -/
def presentSteps (r : PresentCallOutcomes) :
    Except PresentError Unit × List PresentStep :=
  match r.guardLookup with
  | .error e => (.error (.guardLookupFailed e), stepsThrough .guardLookup)
  | .ok version =>
    if version ≠ emptyVersion then (.error .conflict, stepsThrough .guardLookup)
    else
      match r.activeLookup with
      | .error e => (.error (.activeLookupFailed e), stepsThrough .activeLookup)
      | .ok _ =>
        match r.createVersion with
        | .error e => (.error (.createVersionFailed e), stepsThrough .createVersion)
        | .ok _ =>
          match r.duplicateRecords with
          | .error e =>
            (.error (.duplicateRecordsFailed e), stepsThrough .duplicateRecords)
          | .ok _ =>
            match r.createChallengeRecord with
            | .error e =>
              (.error (.createChallengeRecordFailed e),
               stepsThrough .createChallengeRecord)
            | .ok _ =>
              match r.enableVersion with
              | .error e =>
                (.error (.enableVersionFailed e), stepsThrough .enableVersion)
              | .ok _ => (.ok (), stepsThrough .enableVersion)

/-- Specification-side reading of the abort policy: the first failing step of
the call outcomes (the guard fails both on a lookup error and on a non-zero
looked-up version), `none` when every step succeeds. -/
def firstFailure (r : PresentCallOutcomes) : Option PresentError :=
  match r.guardLookup with
  | .error e => some (.guardLookupFailed e)
  | .ok version =>
    if version ≠ emptyVersion then some .conflict
    else
      match r.activeLookup with
      | .error e => some (.activeLookupFailed e)
      | .ok _ =>
        match r.createVersion with
        | .error e => some (.createVersionFailed e)
        | .ok _ =>
          match r.duplicateRecords with
          | .error e => some (.duplicateRecordsFailed e)
          | .ok _ =>
            match r.createChallengeRecord with
            | .error e => some (.createChallengeRecordFailed e)
            | .ok _ =>
              match r.enableVersion with
              | .error e => some (.enableVersionFailed e)
              | .ok _ => none

/-! ### Supporting lemmas -/

/-- Indexing with a cast natural index inside the bounds succeeds. -/
theorem goIndex_natCast {α : Type} (l : List α) (i : Nat) (h : i < l.length) :
    goIndex l (i : Int) = some (l.get ⟨i, h⟩) := by
  have hc : 0 ≤ (i : Int) ∧ (i : Int).toNat < l.length := by
    exact ⟨Int.natCast_nonneg i, by simpa using h⟩
  simp only [goIndex, dif_pos hc]
  simp

/-- When some version carries the requested name, `FindZoneVersion` returns a
version carrying that name (in particular not the zero sentinel when the name
is non-empty). -/
theorem FindZoneVersion_name (versions : List Version) (versionName : String)
    (v : Version) (hv : v ∈ versions) (hn : v.Name = versionName) :
    (FindZoneVersion versions versionName).Name = versionName := by
  rcases IndexFunc_spec (fun w => w.Name == versionName) versions with
    ⟨h1, h2⟩ | ⟨i, h, h1, h2, h3⟩
  · have := h2 v hv
    simp [hn] at this
  · simp only [FindZoneVersion, h1]
    rw [if_pos (by omega : (i : Int) > -1), goIndex_natCast versions i h]
    simpa using h2

/-- When no record matches the requested name and type, `GetRecord` returns
the zero sentinel. -/
theorem GetRecord_of_no_match (rs : List Record) (n t : String)
    (hall : ∀ r ∈ rs, (r.Name == n && r.Typ == t) = false) :
    GetRecord rs n t = emptyRecord := by
  have hidx := IndexFunc_eq_neg_one (fun r => r.Name == n && r.Typ == t) rs hall
  simp only [GetRecord, hidx]
  rfl

/-- When position `i` holds the first record matching name and type,
`GetRecord` returns it. -/
theorem GetRecord_of_first_match (rs : List Record) (n t : String) (i : Nat)
    (h : i < rs.length)
    (hp : ((rs.get ⟨i, h⟩).Name == n && (rs.get ⟨i, h⟩).Typ == t) = true)
    (hfirst : ∀ (j : Nat) (hj : j < rs.length), j < i →
      ((rs.get ⟨j, hj⟩).Name == n && (rs.get ⟨j, hj⟩).Typ == t) = false) :
    GetRecord rs n t = rs.get ⟨i, h⟩ := by
  have hidx := IndexFunc_eq_of_first (fun r => r.Name == n && r.Typ == t) rs i h hp hfirst
  simp only [GetRecord, hidx]
  rw [if_pos (by omega : (i : Int) > -1), goIndex_natCast rs i h]
  rfl

/-! ### Claim theorems -/

/-- C5: the creation payload sent by `CreateZoneVersion` has its name field
equal to the fixed default label `"lego_tmp"` for every `versionName`
argument; the payload does not depend on the argument at all. -/
theorem CreateZoneVersion_payload_name_fixed (versionName : String) :
    (CreateZoneVersionPayload versionName).name = "lego_tmp"
  ∧ CreateZoneVersionPayload versionName = CreateZoneVersionPayload "lego_tmp" :=
  ⟨rfl, rfl⟩

/-- C6: the payload posted by `CreateRecord` carries the fixed default
priority 12 regardless of the input record's priority, while name, type, ttl
and value are copied unchanged from the input record. -/
theorem CreateRecord_payload_fields (record : Record) :
    (CreateRecordPayload record).Priority = DefaultRecordPriority
  ∧ DefaultRecordPriority = 12
  ∧ (CreateRecordPayload record).Name = record.Name
  ∧ (CreateRecordPayload record).Typ = record.Typ
  ∧ (CreateRecordPayload record).TTL = record.TTL
  ∧ (CreateRecordPayload record).Value = record.Value :=
  ⟨rfl, rfl, rfl, rfl, rfl, rfl⟩

/-- C2: the claim that `DuplicateZoneVersionRecords` copies exactly the
records whose type lies in {A, AAAA, CNAME, MX, SRV, TXT} fails: the
alternation-precedence reading of the filter regexp also matches the type
`"ANY"`, which is not in the allow-list, and a source holding one `"ANY"`
record yields that record in the target.  On the spec's own example (one
record each of A, NS, TXT, SOA) the intended behavior does hold: exactly the
A and TXT records are copied, in source order. -/
theorem DuplicateZoneVersionRecords_allowlist_violated :
    allowedTypesMatch "ANY" = true
  ∧ ¬("ANY" ∈ (["A", "AAAA", "CNAME", "MX", "SRV", "TXT"] : List String))
  ∧ DuplicateZoneVersionRecordsPayloads
      [{ Typ := "ANY", Name := "x", Value := "v", TTL := 300, Priority := 0 }]
      = [{ Typ := "ANY", Name := "x", Value := "v", TTL := 300, Priority := 12 }]
  ∧ DuplicateZoneVersionRecordsPayloads
      [{ Typ := "A", Name := "a1", Value := "1.2.3.4", TTL := 3600, Priority := 0 },
       { Typ := "NS", Name := "", Value := "ns1.test.com", TTL := 3600, Priority := 0 },
       { Typ := "TXT", Name := "t", Value := "tv", TTL := 300, Priority := 0 },
       { Typ := "SOA", Name := "", Value := "soa", TTL := 3600, Priority := 0 }]
      = [{ Typ := "A", Name := "a1", Value := "1.2.3.4", TTL := 3600, Priority := 12 },
         { Typ := "TXT", Name := "t", Value := "tv", TTL := 300, Priority := 12 }] :=
  ⟨rfl, by decide, rfl, rfl⟩

/-- C4 (counterexample): a configuration supplying a base URL still yields a
client aimed at the default base URL — `Config.BaseURL` is ignored by the
construction. -/
theorem NewDNSProviderConfig_ignores_BaseURL :
    providerClientBaseURL (NewDNSProviderConfig (some
      { BaseURL := "http://localhost:8080", APIToken := "token",
        TempZoneVersionName := "lego_tmp", PropagationTimeout := 0,
        PollingInterval := 0, TTL := 300 }))
      = some "https://api.online.net/api/v1"
  ∧ "https://api.online.net/api/v1" ≠ "http://localhost:8080" :=
  ⟨rfl, by decide⟩

/-- C4 (amended): every successful construction yields a client whose base
URL is the default `https://api.online.net/api/v1`, whatever `BaseURL` the
configuration supplies. -/
theorem NewDNSProviderConfig_baseURL_always_default (cfg : Config)
    (p : DNSProvider) (h : NewDNSProviderConfig (some cfg) = .ok p) :
    p.client.baseURL = DefaultBaseURL := by
  by_cases htok : cfg.APIToken = ""
  · simp [NewDNSProviderConfig, htok] at h
  · simp only [NewDNSProviderConfig, if_neg htok, NewClient] at h
    cases h
    rfl

/-- C4 (witness of the amended theorem at a concrete configuration). -/
theorem NewDNSProviderConfig_baseURL_always_default_witness :
    (({ config := { BaseURL := "http://localhost:8080", APIToken := "token",
                    TempZoneVersionName := "lego_tmp", PropagationTimeout := 0,
                    PollingInterval := 0, TTL := 300 },
        client := { apiToken := "token", baseURL := DefaultBaseURL } } :
        DNSProvider)).client.baseURL = DefaultBaseURL :=
  NewDNSProviderConfig_baseURL_always_default
    { BaseURL := "http://localhost:8080", APIToken := "token",
      TempZoneVersionName := "lego_tmp", PropagationTimeout := 0,
      PollingInterval := 0, TTL := 300 }
    { config := { BaseURL := "http://localhost:8080", APIToken := "token",
                  TempZoneVersionName := "lego_tmp", PropagationTimeout := 0,
                  PollingInterval := 0, TTL := 300 },
      client := { apiToken := "token", baseURL := DefaultBaseURL } }
    rfl

/-- C10: every endpoint builder turns the zone name into the domain path
segment by removing exactly the final character, whatever that character is,
and on the empty zone name the slice is out of range and the operation
faults (`none`) instead of returning an error. -/
theorem Client_domain_segment_strips_last_char :
    (∀ (l : List Char) (c : Char),
      domainNameOf ⟨l ++ [c]⟩ = some ⟨l⟩
      ∧ ListAllVersionsEndpoint ⟨l ++ [c]⟩ = some ["domain", ⟨l⟩, "version"]
      ∧ (∀ u : String,
          GetZoneVersionEndpoint ⟨l ++ [c]⟩ u = some ["domain", ⟨l⟩, "version", u])
      ∧ CreateZoneVersionEndpoint ⟨l ++ [c]⟩ = some ["domain", ⟨l⟩, "version"]
      ∧ (∀ u : String,
          DeleteZoneVersionEndpoint ⟨l ++ [c]⟩ u = some ["domain", ⟨l⟩, "version", u])
      ∧ (∀ u : String,
          GetAllRecordsEndpoint ⟨l ++ [c]⟩ u
            = some ["domain", ⟨l⟩, "version", u, "zone"])
      ∧ (∀ u : String,
          EnableZoneEndpoint ⟨l ++ [c]⟩ u
            = some ["domain", ⟨l⟩, "version", u, "enable"])
      ∧ (∀ u : String,
          CreateRecordEndpoint ⟨l ++ [c]⟩ u
            = some ["domain", ⟨l⟩, "version", u, "zone"]))
  ∧ domainNameOf "" = none
  ∧ ListAllVersionsEndpoint "" = none
  ∧ (∀ u : String, GetZoneVersionEndpoint "" u = none)
  ∧ CreateZoneVersionEndpoint "" = none
  ∧ (∀ u : String, DeleteZoneVersionEndpoint "" u = none)
  ∧ (∀ u : String, GetAllRecordsEndpoint "" u = none)
  ∧ (∀ u : String, EnableZoneEndpoint "" u = none)
  ∧ (∀ u : String, CreateRecordEndpoint "" u = none) := by
  have hdom : ∀ (l : List Char) (c : Char), domainNameOf ⟨l ++ [c]⟩ = some ⟨l⟩ := by
    intro l c
    simp [domainNameOf]
  refine ⟨?_, rfl, rfl, fun u => rfl, rfl, fun u => rfl, fun u => rfl,
    fun u => rfl, fun u => rfl⟩
  intro l c
  refine ⟨hdom l c, ?_, fun u => ?_, ?_, fun u => ?_, fun u => ?_, fun u => ?_,
    fun u => ?_⟩ <;>
    simp [ListAllVersionsEndpoint, GetZoneVersionEndpoint,
      CreateZoneVersionEndpoint, DeleteZoneVersionEndpoint,
      GetAllRecordsEndpoint, EnableZoneEndpoint, CreateRecordEndpoint, hdom l c]

/-- C7: `GetRecord` returns (without error) the first record of the version
matching both the requested name and the requested type, the zero-value
sentinel (without error) when none matches, and on the record list
[{A,"test01"}, {TXT,"test04"}, {A,"test04"}] the query ("test04","A") yields
the third record, not the TXT one. -/
theorem GetRecord_first_match_spec :
    (∀ (rs : List Record) (n t : String) (i : Nat) (h : i < rs.length),
      ((rs.get ⟨i, h⟩).Name == n && (rs.get ⟨i, h⟩).Typ == t) = true →
      (∀ (j : Nat) (hj : j < rs.length), j < i →
        ((rs.get ⟨j, hj⟩).Name == n && (rs.get ⟨j, hj⟩).Typ == t) = false) →
      GetRecordResult (.ok rs) n t = .ok (rs.get ⟨i, h⟩))
  ∧ (∀ (rs : List Record) (n t : String),
      (∀ r ∈ rs, (r.Name == n && r.Typ == t) = false) →
      GetRecordResult (.ok rs) n t = .ok emptyRecord)
  ∧ GetRecord
      [{ Typ := "A", Name := "test01", Value := "127.0.0.1", TTL := 86400, Priority := 0 },
       { Typ := "TXT", Name := "test04", Value := "txt04", TTL := 86400, Priority := 0 },
       { Typ := "A", Name := "test04", Value := "127.0.0.1", TTL := 86400, Priority := 0 }]
      "test04" "A"
    = { Typ := "A", Name := "test04", Value := "127.0.0.1", TTL := 86400,
        Priority := 0 } := by
  refine ⟨?_, ?_, rfl⟩
  · intro rs n t i h hp hfirst
    simp only [GetRecordResult, GetRecord_of_first_match rs n t i h hp hfirst]
  · intro rs n t hall
    simp only [GetRecordResult, GetRecord_of_no_match rs n t hall]

/-- C7 (witness): the first-match and no-match statements applied on the
spec's example list. -/
theorem GetRecord_first_match_spec_witness :
    GetRecordResult (.ok
      [{ Typ := "A", Name := "test01", Value := "127.0.0.1", TTL := 86400, Priority := 0 },
       { Typ := "TXT", Name := "test04", Value := "txt04", TTL := 86400, Priority := 0 },
       { Typ := "A", Name := "test04", Value := "127.0.0.1", TTL := 86400, Priority := 0 }])
      "test04" "A"
    = .ok { Typ := "A", Name := "test04", Value := "127.0.0.1", TTL := 86400,
            Priority := 0 } :=
  GetRecord_first_match_spec.1
    [{ Typ := "A", Name := "test01", Value := "127.0.0.1", TTL := 86400, Priority := 0 },
     { Typ := "TXT", Name := "test04", Value := "txt04", TTL := 86400, Priority := 0 },
     { Typ := "A", Name := "test04", Value := "127.0.0.1", TTL := 86400, Priority := 0 }]
    "test04" "A" 2 (by decide) (by decide) (by decide)

/-- C9: `ReadVersionUUID` returns the part of the value after the 15-character
prefix `"active_version:"` of the first ("lego","TXT") record; it returns the
empty string both when no such record exists and when the record's value does
not start with the prefix; errors propagate exactly from the underlying
record listing. -/
theorem ReadVersionUUID_spec :
    (∀ (records : List Record) (rest : List Char),
      (GetRecord records "lego" "TXT").Value = ⟨"active_version:".data ++ rest⟩ →
      ReadVersionUUID records = ⟨rest⟩)
  ∧ (∀ records : List Record,
      "active_version:".data.isPrefixOf
        (GetRecord records "lego" "TXT").Value.data = false →
      ReadVersionUUID records = "")
  ∧ (∀ records : List Record,
      (∀ r ∈ records, (r.Name == "lego" && r.Typ == "TXT") = false) →
      ReadVersionUUID records = "")
  ∧ (∀ e : String, ReadVersionUUIDResult (.error e) = .error e)
  ∧ (∀ records : List Record,
      ReadVersionUUIDResult (.ok records) = .ok (ReadVersionUUID records)) := by
  refine ⟨?_, ?_, ?_, fun e => rfl, fun records => rfl⟩
  · intro records rest hval
    have hdata : (GetRecord records "lego" "TXT").Value.data
        = "active_version:".data ++ rest := congrArg String.data hval
    have hpre : "active_version:".data.isPrefixOf
        ("active_version:".data ++ rest) = true :=
      List.isPrefixOf_iff_prefix.mpr (List.prefix_append _ _)
    have hlen : ("active_version:".data).length = 15 := by decide
    simp only [ReadVersionUUID, hdata, hpre, if_true]
    rw [List.drop_left' hlen]
  · intro records hfalse
    simp only [ReadVersionUUID, hfalse]
    rfl
  · intro records hall
    simp only [ReadVersionUUID, GetRecord_of_no_match records "lego" "TXT" hall]
    rfl

/-- C9 (witness): reading the version UUID out of a record list holding the
fixture's `("lego","TXT")` record with value `"active_version:thisone"`. -/
theorem ReadVersionUUID_spec_witness :
    ReadVersionUUID
      [{ Typ := "TXT", Name := "lego", Value := "active_version:thisone",
         TTL := 86400, Priority := 0 }] = ⟨"thisone".data⟩ :=
  ReadVersionUUID_spec.1
    [{ Typ := "TXT", Name := "lego", Value := "active_version:thisone",
       TTL := 86400, Priority := 0 }]
    "thisone".data (by decide)

/-- C1: the claim that `FindActiveZoneVersion` surfaces a `NotFoundError` on
a zone with no active version fails on the code: the unconditional indexing
after `slices.IndexFunc` evaluates `versions[-1]`, an out-of-range fault
(modelled `none`).  The positive half holds: with exactly one active version
the function returns that version. -/
theorem FindActiveZoneVersion_spec :
    FindActiveZoneVersion [{ emptyVersion with Name := "v1" }] = none
  ∧ ∀ (versions : List Version) (i : Nat) (h : i < versions.length),
      (versions.get ⟨i, h⟩).Active = true →
      (∀ (j : Nat) (hj : j < versions.length), j ≠ i →
        (versions.get ⟨j, hj⟩).Active = false) →
      FindActiveZoneVersion versions = some (versions.get ⟨i, h⟩) := by
  refine ⟨rfl, ?_⟩
  intro versions i h hact huniq
  have hidx : IndexFunc (fun v => v.Active) versions = (i : Int) :=
    IndexFunc_eq_of_first _ versions i h hact
      (fun j hj hji => huniq j hj (Nat.ne_of_lt hji))
  unfold FindActiveZoneVersion
  rw [hidx, goIndex_natCast versions i h]

/-- C1 (witness): on a list whose second element is the only active version,
`FindActiveZoneVersion` returns that element. -/
theorem FindActiveZoneVersion_spec_witness :
    FindActiveZoneVersion
      [{ emptyVersion with Name := "inactive" },
       { emptyVersion with Name := "activeVersion001", Active := true }]
      = some { emptyVersion with Name := "activeVersion001", Active := true } :=
  FindActiveZoneVersion_spec.2
    [{ emptyVersion with Name := "inactive" },
     { emptyVersion with Name := "activeVersion001", Active := true }]
    1 (by decide) (by decide) (by decide)

/-- C8: whenever one of `Present`'s six client steps is the first to fail
(the guard failing either on a lookup error or on a non-zero looked-up
version), `Present` returns the error of that step and the calls issued are
exactly the steps through the failing one — no call of a later step is
performed. -/
theorem Present_aborts_on_first_failure (r : PresentCallOutcomes)
    (e : PresentError) (h : firstFailure r = some e) :
    presentSteps r = (.error e, stepsThrough e.step) := by
  cases hg : r.guardLookup with
  | error ge =>
    simp only [firstFailure, hg, Option.some.injEq] at h
    subst h
    simp only [presentSteps, hg]
    rfl
  | ok gv =>
    by_cases hne : gv ≠ emptyVersion
    · simp only [firstFailure, hg, if_pos hne, Option.some.injEq] at h
      subst h
      simp only [presentSteps, hg, if_pos hne]
      rfl
    · cases ha : r.activeLookup with
      | error ae =>
        simp only [firstFailure, hg, if_neg hne, ha, Option.some.injEq] at h
        subst h
        simp only [presentSteps, hg, if_neg hne, ha]
        rfl
      | ok av =>
        cases hc : r.createVersion with
        | error ce =>
          simp only [firstFailure, hg, if_neg hne, ha, hc, Option.some.injEq] at h
          subst h
          simp only [presentSteps, hg, if_neg hne, ha, hc]
          rfl
        | ok cv =>
          cases hd : r.duplicateRecords with
          | error de =>
            simp only [firstFailure, hg, if_neg hne, ha, hc, hd,
              Option.some.injEq] at h
            subst h
            simp only [presentSteps, hg, if_neg hne, ha, hc, hd]
            rfl
          | ok dv =>
            cases hr : r.createChallengeRecord with
            | error re =>
              simp only [firstFailure, hg, if_neg hne, ha, hc, hd, hr,
                Option.some.injEq] at h
              subst h
              simp only [presentSteps, hg, if_neg hne, ha, hc, hd, hr]
              rfl
            | ok rv =>
              cases he : r.enableVersion with
              | error ee =>
                simp only [firstFailure, hg, if_neg hne, ha, hc, hd, hr, he,
                  Option.some.injEq] at h
                subst h
                simp only [presentSteps, hg, if_neg hne, ha, hc, hd, hr, he]
                rfl
              | ok ev =>
                simp only [firstFailure, hg, if_neg hne, ha, hc, hd, hr, he] at h
                cases h

/-- C8 (witness): with a guard lookup that returns the zero version and an
active-version lookup that fails, `Present` returns the active-lookup error
and issues only the guard-lookup and active-lookup calls. -/
theorem Present_aborts_on_first_failure_witness :
    presentSteps
      { guardLookup := .ok emptyVersion, activeLookup := .error "boom",
        createVersion := .ok emptyVersion, duplicateRecords := .ok (),
        createChallengeRecord := .ok emptyRecord, enableVersion := .ok () }
      = (.error (.activeLookupFailed "boom"),
         [.guardLookup, .activeLookup]) :=
  Present_aborts_on_first_failure
    { guardLookup := .ok emptyVersion, activeLookup := .error "boom",
      createVersion := .ok emptyVersion, duplicateRecords := .ok (),
      createChallengeRecord := .ok emptyRecord, enableVersion := .ok () }
    (.activeLookupFailed "boom") rfl

/-! ### Helper facts about the backend model -/

/-- Posting records never changes the version collection. -/
theorem foldl_createRecord_versions (target : String) :
    ∀ (l : List Record) (st : ZoneState),
      (l.foldl (fun st r =>
        (createRecordModel st target
          { Typ := r.Typ, Name := r.Name, Value := r.Value, TTL := r.TTL,
            Priority := 0 }).2) st).versions = st.versions
  | [], st => rfl
  | r :: l, st => by
    rw [List.foldl_cons]
    rw [foldl_createRecord_versions target l _]
    rfl

/-- Duplicating records never changes the version collection. -/
theorem duplicateModel_versions (s : ZoneState) (a b : String) :
    (duplicateModel s a b).versions = s.versions := by
  simp only [duplicateModel]
  exact foldl_createRecord_versions b _ s

/-- C3 (counterexample): with the configured temporary-version label
`"my_tmp"`, a first `Present` on a zone with one active version succeeds, and
a second `Present` without an intervening `CleanUp` does not fail with a
`ConflictError` — the guard looks up `"my_tmp"` but the version the first
call created is named `"lego_tmp"`. -/
theorem Present_twice_no_conflict_for_custom_label :
    (presentModel "my_tmp" "_acme-challenge" "value" 300
      { versions := [{ UUIDRef := "uuid-1", Name := "prod", CreationDate := "",
                       Domain := ⟨""⟩, Zone := ⟨""⟩, Active := true }],
        records := [("uuid-1",
          [{ Typ := "A", Name := "www", Value := "127.0.0.1", TTL := 3600,
             Priority := 0 }])],
        nextId := 2 }).isOk = true
  ∧ (presentTwice "my_tmp" "_acme-challenge" "value" 300
      { versions := [{ UUIDRef := "uuid-1", Name := "prod", CreationDate := "",
                       Domain := ⟨""⟩, Zone := ⟨""⟩, Active := true }],
        records := [("uuid-1",
          [{ Typ := "A", Name := "www", Value := "127.0.0.1", TTL := 3600,
             Priority := 0 }])],
        nextId := 2 }).isConflict = false :=
  ⟨rfl, rfl⟩

/-- C3 (amended): with the configured temporary-version label `"lego_tmp"` —
the name the created version actually receives, since `CreateZoneVersion`'s
payload ignores the requested name — a second `Present` without an
intervening `CleanUp` fails with the `ConflictError`, assuming the first
`Present` succeeded and no external change to the zone's versions. -/
theorem Present_twice_conflict_for_default_label (recName recValue : String)
    (ttl : Int) (s0 : ZoneState)
    (h : (presentModel "lego_tmp" recName recValue ttl s0).isOk = true) :
    (presentTwice "lego_tmp" recName recValue ttl s0).isConflict = true := by
  cases hp : presentModel "lego_tmp" recName recValue ttl s0 with
  | conflictError s =>
    rw [hp] at h
    cases h
  | panicNoActive s =>
    rw [hp] at h
    cases h
  | ok s1 =>
    have hgoal : (presentTwice "lego_tmp" recName recValue ttl s0)
        = presentModel "lego_tmp" recName recValue ttl s1 := by
      simp only [presentTwice, hp]
    rw [hgoal]
    -- the first run appended a version named "lego_tmp", then only toggled
    -- active flags
    simp only [presentModel] at hp
    by_cases hne0 : FindZoneVersion s0.versions "lego_tmp" ≠ emptyVersion
    · rw [if_pos hne0] at hp
      cases hp
    · rw [if_neg hne0] at hp
      cases hact : FindActiveZoneVersion s0.versions with
      | none =>
        rw [hact] at hp
        cases hp
      | some activeZoneVersion =>
        rw [hact] at hp
        simp only [PresentOutcome.ok.injEq] at hp
        -- s1's version list holds a version named "lego_tmp"
        have hmem : ∃ v ∈ s1.versions, v.Name = "lego_tmp" := by
          rw [← hp]
          simp only [enableModel]
          have hrec : ((createRecordModel
              (duplicateModel (createZoneVersionModel s0 "lego_tmp").2
                activeZoneVersion.UUIDRef
                (createZoneVersionModel s0 "lego_tmp").1.UUIDRef)
              (createZoneVersionModel s0 "lego_tmp").1.UUIDRef
              { Typ := "TXT", Name := recName, Value := recValue, TTL := ttl,
                Priority := 0 }).2).versions
              = s0.versions ++ [(createZoneVersionModel s0 "lego_tmp").1] := by
            show (duplicateModel (createZoneVersionModel s0 "lego_tmp").2
                activeZoneVersion.UUIDRef
                (createZoneVersionModel s0 "lego_tmp").1.UUIDRef).versions = _
            rw [duplicateModel_versions]
            rfl
          rw [hrec]
          refine ⟨{ (createZoneVersionModel s0 "lego_tmp").1 with
            Active := ((createZoneVersionModel s0 "lego_tmp").1.UUIDRef
              == (createZoneVersionModel s0 "lego_tmp").1.UUIDRef) }, ?_, rfl⟩
          exact List.mem_map_of_mem _ (List.mem_append_right _ (by simp))
        rcases hmem with ⟨v, hv, hvname⟩
        have hname : (FindZoneVersion s1.versions "lego_tmp").Name = "lego_tmp" :=
          FindZoneVersion_name s1.versions "lego_tmp" v hv hvname
        have hne1 : FindZoneVersion s1.versions "lego_tmp" ≠ emptyVersion := by
          intro he
          rw [he] at hname
          exact absurd hname (by decide)
        simp only [presentModel, if_pos hne1]
        rfl

/-- C3 (witness of the amended theorem): two `Present` runs with the default
label on a zone with one active version; the second one conflicts. -/
theorem Present_twice_conflict_for_default_label_witness :
    (presentTwice "lego_tmp" "_acme-challenge" "value" 300
      { versions := [{ UUIDRef := "uuid-1", Name := "prod", CreationDate := "",
                       Domain := ⟨""⟩, Zone := ⟨""⟩, Active := true }],
        records := [("uuid-1",
          [{ Typ := "A", Name := "www", Value := "127.0.0.1", TTL := 3600,
             Priority := 0 }])],
        nextId := 2 }).isConflict = true :=
  Present_twice_conflict_for_default_label "_acme-challenge" "value" 300
    { versions := [{ UUIDRef := "uuid-1", Name := "prod", CreationDate := "",
                     Domain := ⟨""⟩, Zone := ⟨""⟩, Active := true }],
      records := [("uuid-1",
        [{ Typ := "A", Name := "www", Value := "127.0.0.1", TTL := 3600,
           Priority := 0 }])],
      nextId := 2 }
    rfl

end ScalewayDedibox
